import Mathlib

/-
Verification of the Ferret search-engine core against its specification.

The repository sources available here are the index facade (src/c/src/ind.c)
and the test suites (src/c/test/test_search.c, src/test/test_helper.c,
src/c/test/test_lang.c).  The facade is embedded directly from ind.c.  The
similarity helpers, the wildcard matcher, the scorers and the searcher live in
files that are not part of the sources here; where a claim depends on them
they are modelled from the specification, and each such definition says so in
its doc comment.
-/

namespace Ferret

/-! ### Norm byte encoding (spec section 4.1) -/

/-- Modelled from the spec: `byte2float` (norm decoding; its implementation
file helper.c is not among the sources).  A nonzero byte holds a three-bit
exponent in its high bits and a five-bit mantissa in its low bits; with the
implicit leading bit the decoded value is `(32 + mantissa) * 2 ^ exponent`,
written here in units of `2 ^ (-5)` so that it stays a natural number.
Byte 0 decodes to 0.  The input is reduced mod 256 as the C argument is one
byte. -/
def byte2float (b : Nat) : Nat :=
  if b % 256 = 0 then 0
  else (32 + b % 256 % 32) * 2 ^ (b % 256 / 32)

/-- Number of binary digits of `n`; the first argument is fuel making the
recursion structural, `bitLenAux n n` is exact for every `n`. -/
def bitLenAux : Nat → Nat → Nat
  | 0, _ => 0
  | fuel + 1, n => if n = 0 then 0 else bitLenAux fuel (n / 2) + 1

/-- Number of binary digits of `n` (0 for 0). -/
def bitLen (n : Nat) : Nat :=
  bitLenAux n n

/-- Modelled from the spec: `float2byte` (norm encoding; helper.c is not among
the sources).  Values are in units of `2 ^ (-5)` as in `byte2float`.  Zero
encodes to byte 0; positive values below the smallest normal code clamp to 1;
values beyond the largest exponent clamp to 255; otherwise the position of the
leading bit gives the three-bit exponent and the next five bits give the
mantissa, dropping any lower bits - this truncation is the lossiness the spec
mentions. -/
def float2byte (f : Nat) : Nat :=
  if f = 0 then 0
  else if f < 32 then 1
  else
    let e := bitLen f - 6
    if 7 < e then 255
    else e * 32 + (f / 2 ^ e - 32)

/-! ### Wildcard matching (spec section 6) -/

/-- A star consumes an arbitrary run: try the continuation on every suffix of
the text. -/
def globStar (cont : List Char → Bool) : List Char → Bool
  | [] => cont []
  | t :: ts => cont (t :: ts) || globStar cont ts

/-- Modelled from the spec: the recursive core of `wc_match` (its
implementation is not among the sources).  Pattern characters are literals
except `?`, which consumes exactly one character, and `*`, which consumes any
run of zero or more characters; matching is whole-string. -/
def globM : List Char → List Char → Bool
  | [], ts => ts.isEmpty
  | p :: ps, ts =>
    if p = '*' then globStar (globM ps) ts
    else
      match ts with
      | [] => false
      | t :: ts' => (decide (p = '?') || decide (p = t)) && globM ps ts'

/-- Modelled from the spec: `wc_match pattern text`.  The spec adds one rule
on top of the glob grammar: the empty pattern matches nothing. -/
def wc_match (pat text : List Char) : Bool :=
  if pat.isEmpty then false else globM pat text

/-- Declarative whole-string glob matching, written as the spec states it: a
literal matches only itself, `?` matches exactly one character, and `*`
matches any run of zero or more characters. -/
inductive GlobMatch : List Char → List Char → Prop
  | nil : GlobMatch [] []
  | lit {c : Char} {ps ts : List Char} : c ≠ '*' → c ≠ '?' →
      GlobMatch ps ts → GlobMatch (c :: ps) (c :: ts)
  | one {ps ts : List Char} {t : Char} :
      GlobMatch ps ts → GlobMatch ('?' :: ps) (t :: ts)
  | starSkip {ps ts : List Char} :
      GlobMatch ps ts → GlobMatch ('*' :: ps) ts
  | starCons {ps ts : List Char} {t : Char} :
      GlobMatch ('*' :: ps) ts → GlobMatch ('*' :: ps) (t :: ts)

/-! ### Postings model and query semantics (spec sections 3, 4.3, 4.4)

The scorers and the searcher are not among the sources here; the semantics
below are modelled from the specification.  A segment index is a finite table:
per field, per term, the posting list of (doc id, positions); a term occurs in
a document exactly when it has at least one position there. -/

/-- A segment index: per field, per term, the posting list mapping a doc id
to the (increasing) list of positions of that term in that doc. -/
structure SegIndex where
  maxDoc : Nat
  fieldData : List (String × List (String × List (Nat × List Nat)))

/-- The posting list of a term: unknown fields and unknown terms give the
empty list. -/
def termPostings (idx : SegIndex) (f t : String) : List (Nat × List Nat) :=
  (((idx.fieldData.lookup f).getD []).lookup t).getD []

/-- Positions of term `t` of field `f` in document `d`. -/
def positionsOf (idx : SegIndex) (f t : String) (d : Nat) : List Nat :=
  ((termPostings idx f t).lookup d).getD []

/-- The term dictionary of a field, in index order. -/
def fieldTermDict (idx : SegIndex) (f : String) : List String :=
  ((idx.fieldData.lookup f).getD []).map (fun e => e.1)

/-- Modelled from the spec: a TermQuery matches the documents in which the
term occurs (the TermScorer walks the term's posting list; a missing term
degrades to an empty scorer). -/
def termMatches (idx : SegIndex) (f t : String) (d : Nat) : Bool :=
  !(positionsOf idx f t d).isEmpty

/-- Modelled from the spec: a MultiTermQuery is a disjunction over its
terms. -/
def multiTermMatches (idx : SegIndex) (f : String) (ts : List String)
    (d : Nat) : Bool :=
  ts.any (fun t => termMatches idx f t d)

/-- Whether string `p` is a (character-wise) initial segment of `s`. -/
def isPref : List Char → List Char → Bool
  | [], _ => true
  | _ :: _, [] => false
  | a :: as, b :: bs => decide (a = b) && isPref as bs

/-- Modelled from the spec: a PrefixQuery enumerates the terms of the field
whose bytes start with the literal and feeds them into a MultiTerm
rewrite. -/
def prefMatches (idx : SegIndex) (f lit : String) (d : Nat) : Bool :=
  multiTermMatches idx f
    ((fieldTermDict idx f).filter (fun t => isPref lit.toList t.toList)) d

/-- Modelled from the spec: a WildcardQuery enumerates the terms of the field
matching the glob pattern and feeds them into a MultiTerm rewrite. -/
def wildcardMatches (idx : SegIndex) (f : String) (pat : List Char)
    (d : Nat) : Bool :=
  multiTermMatches idx f
    ((fieldTermDict idx f).filter (fun t => wc_match pat t.toList)) d

/-- Positions available at one phrase slot: the union (here, concatenation)
of the positions of the slot's alternatives - the MultiPhraseScorer treats
any of their positions as valid. -/
def slotPositions (idx : SegIndex) (f : String) (d : Nat) :
    List String → List Nat
  | [] => []
  | t :: ts => positionsOf idx f t d ++ slotPositions idx f d ts

/-- Positions available at one phrase slot, each reduced by the slot's
declared position, so that in an exact match all slots yield the same
value. -/
def adjPositions (idx : SegIndex) (f : String) (d : Nat)
    (alts : List String) (p : Int) : List Int :=
  (slotPositions idx f d alts).map (fun c => Int.ofNat c - p)

/-- Modelled from the spec: a PhraseQuery matches a document when one
occurrence can be picked per slot such that the picked positions, each
reduced by its slot's declared offset, all fit in a window of width `slop`
(the distance `end - start` that the sloppy-phrase algorithm in the spec
computes; with slop 0 the positions of slot i minus the relative offset must
equal the position of slot 0).  Equivalently, some slot occurrence is the
window's start and every slot has an occurrence within `slop` above it.  A
phrase with no slots matches nothing. -/
def phraseMatches (idx : SegIndex) (f : String)
    (terms : List (List String × Int)) (slop : Nat) (d : Nat) : Bool :=
  match terms with
  | [] => false
  | _ =>
    let adjs := terms.map (fun e => adjPositions idx f d e.1 e.2)
    (adjs.foldr (fun a acc => a ++ acc) []).any (fun a =>
      adjs.all (fun ps =>
        ps.any (fun b => decide (a ≤ b) && decide (b ≤ a + (slop : Int)))))

/-- Clause occurrence markers of a Boolean query. -/
inductive Occur where
  | must
  | should
  | mustNot
deriving DecidableEq

/-- Modelled from the spec: the BooleanScorer.  Candidates come from the MUST
conjunction when there is at least one MUST clause, otherwise from the SHOULD
disjunction (min_should_match defaults to 1); with no MUST and no SHOULD
clause no candidate is ever produced; a candidate is then discarded when any
MUST_NOT clause covers it.  Sub-scorers are abstracted as predicates on doc
ids so that the clauses may hold any query kind. -/
def boolMatches (clauses : List (Occur × (Nat → Bool))) (d : Nat) : Bool :=
  let musts := clauses.filter (fun c => c.1 = Occur.must)
  let shoulds := clauses.filter (fun c => c.1 = Occur.should)
  let nots := clauses.filter (fun c => c.1 = Occur.mustNot)
  let candidate :=
    if musts.isEmpty then
      if shoulds.isEmpty then false
      else shoulds.any (fun c => c.2 d)
    else musts.all (fun c => c.2 d)
  candidate && nots.all (fun c => !c.2 d)

/-- All documents of the index matching the predicate, in increasing doc-id
order. -/
def searchHits (idx : SegIndex) (m : Nat → Bool) : List Nat :=
  (List.range idx.maxDoc).filter m

/-- Modelled from the spec: `search_unscored(q, out_buf, offset)` fills the
buffer with up to its capacity `len` of the doc ids matching the query that
are at least `offset`, in increasing order; the written portion is returned
here as a list (the C function returns its length). -/
def searchUnscored (idx : SegIndex) (m : Nat → Bool) (len offset : Nat) :
    List Nat :=
  (((List.range idx.maxDoc).filter m).filter (fun d => offset ≤ d)).take len

/-! ### Rewriting of trivial phrases (spec section 4.3, rewrite rules) -/

/-- Result of rewriting a phrase query. -/
inductive RwQuery where
  | term (f t : String)
  | multiTerm (f : String) (ts : List String)
  | phrase (f : String) (terms : List (List String × Int)) (slop : Nat)
deriving DecidableEq

/-- Modelled from the spec: rewrite of a phrase query.  A phrase occupying
exactly one position collapses to a TermQuery when that position has one
alternative and to a MultiTermQuery when it has several; any other phrase
stays a phrase. -/
def phq_rewrite (f : String) (terms : List (List String × Int))
    (slop : Nat) : RwQuery :=
  match terms with
  | [([t], _)] => RwQuery.term f t
  | [(alts, _)] => RwQuery.multiTerm f alts
  | _ => RwQuery.phrase f terms slop

/-- Semantics of a rewritten query. -/
def rwMatches (idx : SegIndex) : RwQuery → Nat → Bool
  | RwQuery.term f t, d => termMatches idx f t d
  | RwQuery.multiTerm f ts, d => multiTermMatches idx f ts d
  | RwQuery.phrase f terms slop, d => phraseMatches idx f terms slop d

/-! ### The 18-document test corpus (src/c/test/test_search.c) -/

/-- The `field` column of the 18-document corpus, whitespace-tokenized.  (The
test analyzer additionally emits an uppercased copy of each token; those
copies are omitted here as no claim queries them.) -/
def testFieldTokens : List (List String) :=
  [["word1"],
   ["word1", "word2", "the", "quick", "brown", "fox"],
   ["word1", "word3"],
   ["word1", "word3"],
   ["word1", "word2"],
   ["word1"],
   ["word1", "word3"],
   ["word1"],
   ["word1", "word2", "word3", "the", "fast", "brown", "fox"],
   ["word1"],
   ["word1"],
   ["word1", "word3", "the", "quick", "red", "fox"],
   ["word1"],
   ["word1"],
   ["word1", "word3", "the", "quick", "hairy", "fox"],
   ["word1"],
   ["word1", "the", "quick", "fox", "is", "brown", "and", "hairy", "and", "a",
    "little", "red"],
   ["word1", "the", "brown", "fox", "is", "quick", "and", "red"]]

/-- Positions of token `t` in one tokenized document. -/
def tokenPositions (t : String) (toks : List String) : List Nat :=
  (toks.enum.filterMap (fun e => if e.2 = t then some e.1 else none))

/-- Posting list of term `t` over the corpus. -/
def corpusPostings (t : String) : List (Nat × List Nat) :=
  (testFieldTokens.enum.filterMap (fun e =>
    let ps := tokenPositions t e.2
    if ps.isEmpty then none else some (e.1, ps)))

/-- The distinct terms of the corpus `field` column. -/
def corpusTerms : List String :=
  (testFieldTokens.foldr (fun toks acc => toks ++ acc) []).dedup

/-- The corpus as a segment index over its `field` column. -/
def corpusIndex : SegIndex where
  maxDoc := 18
  fieldData := [("field", corpusTerms.map (fun t => (t, corpusPostings t)))]

/-! ### The index facade (src/c/src/ind.c)

The facade is embedded as a state machine.  The store is abstracted to a
generation number; a reader holds the generation it was opened at, and
`ir_is_latest` compares it with the store's; closing a writer or committing a
reader publishes changes, i.e. advances the store generation.  Analyzers are
abstracted to identifiers.  Documents are association lists from field name
to the field's first data value (`df->data[0]`). -/

/-- Mutable state of an `Index` (struct Index, ind.c / ind.h). -/
structure IndexSt where
  storeGen : Nat
  ir : Option Nat
  sea : Bool
  iw : Bool
  iwAnalyzer : Nat
  analyzer : Nat
  hasWrites : Bool
  autoFlush : Bool
  checkLatest : Bool
  key : List String
deriving DecidableEq

/-- INDEX_CLOSE_READER (ind.c): closing the searcher also closes the reader
it wraps; otherwise close the reader if open. -/
def closeReader (s : IndexSt) : IndexSt :=
  if s.sea then { s with sea := false, ir := none }
  else if s.ir.isSome then { s with ir := none }
  else s

/-- iw_close as seen from the facade: the writer flushes its buffered
changes to the store, advancing the store generation. -/
def iwClose (s : IndexSt) : IndexSt :=
  { s with iw := false, storeGen := s.storeGen + 1 }

/-- ir_commit as seen from the facade: the reader publishes its deletions,
advancing the store generation while remaining the latest view. -/
def irCommit (s : IndexSt) : IndexSt :=
  { s with storeGen := s.storeGen + 1, ir := some (s.storeGen + 1) }

/-- AUTOFLUSH_IR (ind.c). -/
def autoflushIr (s : IndexSt) : IndexSt :=
  if s.autoFlush then irCommit s else { s with hasWrites := true }

/-- AUTOFLUSH_IW (ind.c). -/
def autoflushIw (s : IndexSt) : IndexSt :=
  if s.autoFlush then iwClose s else { s with hasWrites := true }

/-- ensure_writer_open (ind.c): if no writer is open, close any open
reader/searcher and open a writer bound to the current analyzer; if a writer
is open but the index's analyzer has changed, rebind it on the writer. -/
def ensureWriterOpen (s : IndexSt) : IndexSt :=
  if !s.iw then
    let s' := closeReader s
    { s' with iw := true, iwAnalyzer := s'.analyzer }
  else if s.analyzer ≠ s.iwAnalyzer then { s with iwAnalyzer := s.analyzer }
  else s

/-- ensure_reader_open (ind.c): an open but stale reader is closed and
reopened when check_latest is set; with no reader open, an open writer is
closed (committing it) and a reader is opened on the store. -/
def ensureReaderOpen (s : IndexSt) : IndexSt :=
  match s.ir with
  | some g =>
    if s.checkLatest ∧ g ≠ s.storeGen then
      let s' := closeReader s
      { s' with ir := some s'.storeGen }
    else s
  | none =>
    let s' := if s.iw then iwClose s else s
    { s' with ir := some s'.storeGen }

/-- ensure_searcher_open (ind.c). -/
def ensureSearcherOpen (s : IndexSt) : IndexSt :=
  let s' := ensureReaderOpen s
  if !s'.sea then { s' with sea := true } else s'

/-- index_flush (ind.c). -/
def index_flush (s : IndexSt) : IndexSt :=
  let s' :=
    if s.ir.isSome then irCommit s
    else if s.iw then iwClose s
    else s
  { s' with hasWrites := false }

/-- index_optimize (ind.c), without the mutex. -/
def index_optimize (s : IndexSt) : IndexSt :=
  autoflushIw (ensureWriterOpen s)

/-- index_delete (ind.c): delete one document by number through the
reader. -/
def index_delete (s : IndexSt) : IndexSt :=
  autoflushIr (ensureReaderOpen s)

/-- The while loop of index_delete_term: one AUTOFLUSH_IR per deleted
document. -/
def iterAutoflushIr (s : IndexSt) : Nat → IndexSt
  | 0 => s
  | n + 1 => autoflushIr (iterAutoflushIr s n)

/-- index_delete_term (ind.c): with a reader open, delete each matching doc,
auto-flushing per deletion (`nMatches` abstracts how many docs the term
matches); otherwise open a writer and hand it the delete-by-term.  Note that
the writer branch of the source has no AUTOFLUSH_IW. -/
def index_delete_term (s : IndexSt) (nMatches : Nat) : IndexSt :=
  if s.ir.isSome then iterAutoflushIr s nMatches
  else ensureWriterOpen s

/-- index_delete_query (ind.c): search and delete each hit through the
reader, then a single AUTOFLUSH_IR. -/
def index_delete_query (s : IndexSt) : IndexSt :=
  autoflushIr (ensureSearcherOpen s)

/-- Observable writer/reader actions a facade operation performs, recorded in
order. -/
inductive Act where
  | iwDeleteTerm (f v : String)
  | searchKey (conj : List (String × String))
  | irDeleteDoc (n : Nat)
  | iwAddDoc
deriving DecidableEq

/-- Result of an add: final state, recorded actions, and whether ARG_ERROR
was raised (a raise leaves the state as it was at the raise point and
performs nothing further). -/
structure AddResult where
  st : IndexSt
  trace : List Act
  err : Bool
deriving DecidableEq

/-- index_add_doc_i (ind.c).  `doc` maps a field to its first data value.
The searcher of the multi-field branch is abstracted by `hits` (total hits of
the key conjunction) and `hit0` (doc id of the first hit). -/
def index_add_doc_i (s : IndexSt) (doc : List (String × String))
    (hits : Nat) (hit0 : Nat) : AddResult :=
  match s.key with
  | [] =>
    let s1 := ensureWriterOpen s
    { st := autoflushIw s1, trace := [Act.iwAddDoc], err := false }
  | [f] =>
    let s1 := ensureWriterOpen s
    match doc.lookup f with
    | some v =>
      let s2 := ensureWriterOpen s1
      { st := autoflushIw s2, trace := [Act.iwDeleteTerm f v, Act.iwAddDoc],
        err := false }
    | none =>
      let s2 := ensureWriterOpen s1
      { st := autoflushIw s2, trace := [Act.iwAddDoc], err := false }
  | _ =>
    let s1 := ensureSearcherOpen s
    let conj := s.key.filterMap (fun f => (doc.lookup f).map (fun v => (f, v)))
    if hits > 1 then
      { st := s1, trace := [Act.searchKey conj], err := true }
    else if hits = 1 then
      let s2 := ensureWriterOpen s1
      { st := autoflushIw s2,
        trace := [Act.searchKey conj, Act.irDeleteDoc hit0, Act.iwAddDoc],
        err := false }
    else
      let s2 := ensureWriterOpen s1
      { st := autoflushIw s2, trace := [Act.searchKey conj, Act.iwAddDoc],
        err := false }

/-- index_add_doc_a (ind.c): when the supplied analyzer differs from the
index's, install it, add, and restore the previous analyzer afterwards; a
raise inside the add skips the restoration. -/
def index_add_doc_a (s : IndexSt) (doc : List (String × String))
    (analyzer : Nat) (hits hit0 : Nat) : AddResult :=
  if analyzer ≠ s.analyzer then
    let r := index_add_doc_i { s with analyzer := analyzer } doc hits hit0
    if r.err then r
    else { r with st := { r.st with analyzer := s.analyzer } }
  else index_add_doc_i s doc hits hit0

/-- The facade operations, for statements quantifying over every
operation.  Read-only operations that touch roles (size, is_deleted,
get_doc, search) reduce to opening a reader or searcher. -/
inductive FOp where
  | optimize
  | deleteDoc
  | deleteTerm (nMatches : Nat)
  | deleteQuery
  | flush
  | addDoc (doc : List (String × String)) (hits hit0 : Nat)
  | readerOp
  | searcherOp
  | writerOp
deriving DecidableEq

/-- One facade step. -/
def fstep (s : IndexSt) : FOp → IndexSt
  | FOp.optimize => index_optimize s
  | FOp.deleteDoc => index_delete s
  | FOp.deleteTerm n => index_delete_term s n
  | FOp.deleteQuery => index_delete_query s
  | FOp.flush => index_flush s
  | FOp.addDoc doc hits hit0 => (index_add_doc_i s doc hits hit0).st
  | FOp.readerOp => ensureReaderOpen s
  | FOp.searcherOp => ensureSearcherOpen s
  | FOp.writerOp => ensureWriterOpen s

/-- The role invariant: the writer and the reader are never open at the same
time. -/
def rolesOk (s : IndexSt) : Prop :=
  ¬(s.ir.isSome ∧ s.iw = true)

/-- The auto-flush policy as claimed for a mutating facade operation: with
auto_flush set, the operation publishes before returning - the store
generation advances, either by closing the open writer or by a reader commit
that leaves the reader at the latest generation; with auto_flush unset it
records the pending writes in has_writes. -/
def autoflushPolicy (step : IndexSt → IndexSt) : Prop :=
  ∀ s : IndexSt,
    (s.autoFlush = true →
      s.storeGen < (step s).storeGen ∧
      ((step s).iw = false ∨ (step s).ir = some (step s).storeGen)) ∧
    (s.autoFlush = false → (step s).hasWrites = true)

/-- A closed index state: no roles open, no pending writes, auto_flush
off. -/
def idleSt : IndexSt :=
  { storeGen := 0, ir := none, sea := false, iw := false, iwAnalyzer := 0,
    analyzer := 0, hasWrites := false, autoFlush := false, checkLatest := true,
    key := [] }

theorem globM_star (ps ts : List Char) :
    globM ('*' :: ps) ts = globStar (globM ps) ts := by
  simp [globM]

theorem globM_cons_nil {p : Char} (ps : List Char) (hp : p ≠ '*') :
    globM (p :: ps) [] = false := by
  simp [globM, hp]

theorem globM_cons_cons {p : Char} (ps : List Char) (t : Char) (ts : List Char)
    (hp : p ≠ '*') :
    globM (p :: ps) (t :: ts)
      = ((decide (p = '?') || decide (p = t)) && globM ps ts) := by
  simp [globM, hp]

theorem globM_iff : ∀ ps ts : List Char, globM ps ts = true ↔ GlobMatch ps ts := by
  intro ps
  induction ps with
  | nil =>
    intro ts
    constructor
    · intro h
      cases ts with
      | nil => exact GlobMatch.nil
      | cons t ts => simp [globM] at h
    · intro h
      cases h
      simp [globM]
  | cons p ps ih =>
    intro ts
    by_cases hp : p = '*'
    · subst hp
      induction ts with
      | nil =>
        rw [globM_star]
        constructor
        · intro h
          exact GlobMatch.starSkip ((ih []).1 h)
        · intro h
          cases h with
          | starSkip h => exact (ih []).2 h
      | cons t ts iht =>
        rw [globM_star] at iht ⊢
        simp only [globStar, Bool.or_eq_true]
        constructor
        · intro h
          rcases h with h | h
          · exact GlobMatch.starSkip ((ih (t :: ts)).1 h)
          · exact GlobMatch.starCons (iht.1 h)
        · intro h
          cases h with
          | lit hs hq hm => exact absurd rfl hs
          | starSkip h => exact Or.inl ((ih (t :: ts)).2 h)
          | starCons h => exact Or.inr (iht.2 h)
    · cases ts with
      | nil =>
        rw [globM_cons_nil ps hp]
        constructor
        · intro h
          exact absurd h (by simp)
        · intro h
          cases h with
          | starSkip h => exact absurd rfl hp
      | cons t ts =>
        rw [globM_cons_cons ps t ts hp]
        simp only [Bool.and_eq_true, Bool.or_eq_true, decide_eq_true_eq]
        constructor
        · intro h
          rcases h with ⟨hpt, hg⟩
          by_cases hq : p = '?'
          · subst hq
            exact GlobMatch.one ((ih ts).1 hg)
          · rcases hpt with h | h
            · exact absurd h hq
            · subst h
              exact GlobMatch.lit hp hq ((ih ts).1 hg)
        · intro h
          cases h with
          | lit hs hq hm => exact ⟨Or.inr rfl, (ih ts).2 hm⟩
          | one hm => exact ⟨Or.inl rfl, (ih ts).2 hm⟩
          | starSkip hm => exact absurd rfl hp
          | starCons hm => exact absurd rfl hp

/-- Claim C8: `wc_match` is whole-string glob matching - a literal matches
only itself, `?` matches exactly one character, `*` matches any run of zero
or more characters - and for every string the empty pattern matches
nothing. -/
theorem C8_wc_match_glob (p t : List Char) :
    wc_match p t = true ↔ (p ≠ [] ∧ GlobMatch p t) := by
  unfold wc_match
  cases p with
  | nil => simp
  | cons a ps => simp [globM_iff]

set_option maxRecDepth 4000 in
/-- Claim C1: for every byte value b in 0..255, encoding the float obtained
by decoding b gives back exactly b: `float2byte (byte2float b) = b`. -/
theorem C1_norm_roundtrip : ∀ b : Fin 256, float2byte (byte2float b.val) = b.val := by
  decide

/-! ### Facade state lemmas -/

@[simp]
theorem closeReader_ir (s : IndexSt) : (closeReader s).ir = none := by
  unfold closeReader
  split_ifs with h1 h2
  · rfl
  · rfl
  · simpa using h2

@[simp]
theorem closeReader_iw (s : IndexSt) : (closeReader s).iw = s.iw := by
  unfold closeReader
  split_ifs <;> rfl

@[simp]
theorem closeReader_storeGen (s : IndexSt) :
    (closeReader s).storeGen = s.storeGen := by
  unfold closeReader
  split_ifs <;> rfl

@[simp]
theorem closeReader_hasWrites (s : IndexSt) :
    (closeReader s).hasWrites = s.hasWrites := by
  unfold closeReader
  split_ifs <;> rfl

@[simp]
theorem closeReader_autoFlush (s : IndexSt) :
    (closeReader s).autoFlush = s.autoFlush := by
  unfold closeReader
  split_ifs <;> rfl

@[simp]
theorem closeReader_analyzer (s : IndexSt) :
    (closeReader s).analyzer = s.analyzer := by
  unfold closeReader
  split_ifs <;> rfl

@[simp]
theorem ensureWriterOpen_iw (s : IndexSt) : (ensureWriterOpen s).iw = true := by
  unfold ensureWriterOpen
  split_ifs with h1 h2
  · rfl
  · simp only [Bool.not_eq_true', Bool.not_eq_false] at h1
    exact h1
  · simp only [Bool.not_eq_true', Bool.not_eq_false] at h1
    exact h1

@[simp]
theorem ensureWriterOpen_storeGen (s : IndexSt) :
    (ensureWriterOpen s).storeGen = s.storeGen := by
  unfold ensureWriterOpen
  split_ifs <;> simp

@[simp]
theorem ensureWriterOpen_hasWrites (s : IndexSt) :
    (ensureWriterOpen s).hasWrites = s.hasWrites := by
  unfold ensureWriterOpen
  split_ifs <;> simp

@[simp]
theorem ensureWriterOpen_autoFlush (s : IndexSt) :
    (ensureWriterOpen s).autoFlush = s.autoFlush := by
  unfold ensureWriterOpen
  split_ifs <;> simp

@[simp]
theorem ensureWriterOpen_analyzer (s : IndexSt) :
    (ensureWriterOpen s).analyzer = s.analyzer := by
  unfold ensureWriterOpen
  split_ifs <;> simp

theorem iw_false_of_rolesOk (s : IndexSt) (h : rolesOk s) {g : Nat}
    (hir : s.ir = some g) : s.iw = false := by
  rcases hw : s.iw with _ | _
  · rfl
  · exact absurd ⟨by simp [hir], hw⟩ h

theorem ensureWriterOpen_ir (s : IndexSt) (h : rolesOk s) :
    (ensureWriterOpen s).ir = none := by
  unfold ensureWriterOpen
  split_ifs with h1 h2
  · simp
  · simp only [Bool.not_eq_true', Bool.not_eq_false] at h1
    cases hir : s.ir with
    | none => simp
    | some g => exact absurd (iw_false_of_rolesOk s h hir) (by simp [h1])
  · simp only [Bool.not_eq_true', Bool.not_eq_false] at h1
    cases hir : s.ir with
    | none => simp
    | some g => exact absurd (iw_false_of_rolesOk s h hir) (by simp [h1])

theorem ensureReaderOpen_spec (s : IndexSt) :
    (ensureReaderOpen s).ir.isSome = true ∧
    (ensureReaderOpen s).hasWrites = s.hasWrites ∧
    (ensureReaderOpen s).autoFlush = s.autoFlush ∧
    (ensureReaderOpen s).analyzer = s.analyzer ∧
    s.storeGen ≤ (ensureReaderOpen s).storeGen ∧
    (s.iw = false → (ensureReaderOpen s).iw = false) ∧
    (s.checkLatest = true →
      (ensureReaderOpen s).ir = some (ensureReaderOpen s).storeGen) ∧
    (s.ir = none → s.iw = true →
      (ensureReaderOpen s).iw = false ∧
      s.storeGen < (ensureReaderOpen s).storeGen) := by
  obtain ⟨gen, ir, sea, iw, iwa, ana, hwr, af, cl, key⟩ := s
  cases ir with
  | some g =>
    simp only [ensureReaderOpen]
    split_ifs with h
    · cases sea <;> simp [closeReader]
    · rcases h' : cl with _ | _ <;> simp [h'] at h ⊢
      omega
  | none =>
    simp only [ensureReaderOpen]
    cases iw <;> simp [iwClose]

theorem ensureReaderOpen_ir_isSome (s : IndexSt) :
    (ensureReaderOpen s).ir.isSome = true :=
  (ensureReaderOpen_spec s).1

theorem ensureReaderOpen_iw (s : IndexSt) (h : rolesOk s) :
    (ensureReaderOpen s).iw = false := by
  cases hir : s.ir with
  | some g =>
    exact (ensureReaderOpen_spec s).2.2.2.2.2.1 (iw_false_of_rolesOk s h hir)
  | none =>
    rcases hw : s.iw with _ | _
    · exact (ensureReaderOpen_spec s).2.2.2.2.2.1 hw
    · exact ((ensureReaderOpen_spec s).2.2.2.2.2.2.2 hir hw).1

@[simp]
theorem ensureReaderOpen_hasWrites (s : IndexSt) :
    (ensureReaderOpen s).hasWrites = s.hasWrites :=
  (ensureReaderOpen_spec s).2.1

@[simp]
theorem ensureReaderOpen_autoFlush (s : IndexSt) :
    (ensureReaderOpen s).autoFlush = s.autoFlush :=
  (ensureReaderOpen_spec s).2.2.1

@[simp]
theorem ensureReaderOpen_analyzer (s : IndexSt) :
    (ensureReaderOpen s).analyzer = s.analyzer :=
  (ensureReaderOpen_spec s).2.2.2.1

theorem ensureReaderOpen_storeGen_ge (s : IndexSt) :
    s.storeGen ≤ (ensureReaderOpen s).storeGen :=
  (ensureReaderOpen_spec s).2.2.2.2.1

theorem ensureSearcherOpen_spec (s : IndexSt) :
    (ensureSearcherOpen s).ir = (ensureReaderOpen s).ir ∧
    (ensureSearcherOpen s).iw = (ensureReaderOpen s).iw ∧
    (ensureSearcherOpen s).storeGen = (ensureReaderOpen s).storeGen ∧
    (ensureSearcherOpen s).hasWrites = s.hasWrites ∧
    (ensureSearcherOpen s).autoFlush = s.autoFlush ∧
    (ensureSearcherOpen s).analyzer = s.analyzer := by
  simp only [ensureSearcherOpen]
  split_ifs <;> simp

theorem autoflushIr_spec (s : IndexSt) :
    (autoflushIr s).iw = s.iw ∧
    (autoflushIr s).autoFlush = s.autoFlush ∧
    (autoflushIr s).analyzer = s.analyzer ∧
    s.storeGen ≤ (autoflushIr s).storeGen ∧
    (s.autoFlush = true →
      s.storeGen < (autoflushIr s).storeGen ∧
      (autoflushIr s).ir = some (autoflushIr s).storeGen) ∧
    (s.autoFlush = false →
      (autoflushIr s).hasWrites = true ∧ (autoflushIr s).ir = s.ir ∧
      (autoflushIr s).storeGen = s.storeGen) := by
  unfold autoflushIr
  rcases haf : s.autoFlush with _ | _ <;> simp [haf, irCommit]

theorem autoflushIw_spec (s : IndexSt) :
    (autoflushIw s).ir = s.ir ∧
    (autoflushIw s).autoFlush = s.autoFlush ∧
    (autoflushIw s).analyzer = s.analyzer ∧
    s.storeGen ≤ (autoflushIw s).storeGen ∧
    (s.autoFlush = true →
      (autoflushIw s).iw = false ∧ s.storeGen < (autoflushIw s).storeGen) ∧
    (s.autoFlush = false →
      (autoflushIw s).hasWrites = true ∧ (autoflushIw s).iw = s.iw ∧
      (autoflushIw s).storeGen = s.storeGen) := by
  unfold autoflushIw
  rcases haf : s.autoFlush with _ | _ <;> simp [haf, iwClose]

theorem iterAutoflushIr_spec (s : IndexSt) (n : Nat) :
    (iterAutoflushIr s n).iw = s.iw ∧
    (iterAutoflushIr s n).autoFlush = s.autoFlush ∧
    s.storeGen ≤ (iterAutoflushIr s n).storeGen ∧
    (1 ≤ n → s.autoFlush = true →
      s.storeGen < (iterAutoflushIr s n).storeGen ∧
      (iterAutoflushIr s n).ir
        = some (iterAutoflushIr s n).storeGen) ∧
    (1 ≤ n → s.autoFlush = false →
      (iterAutoflushIr s n).hasWrites = true) := by
  induction n with
  | zero => simp [iterAutoflushIr]
  | succ k ih =>
    obtain ⟨hiw, haf, hge, hpos, hneg⟩ := ih
    have h := autoflushIr_spec (iterAutoflushIr s k)
    refine ⟨?_, ?_, ?_, ?_, ?_⟩
    · rw [iterAutoflushIr]
      rw [h.1, hiw]
    · rw [iterAutoflushIr]
      rw [h.2.1, haf]
    · rw [iterAutoflushIr]
      exact le_trans hge h.2.2.2.1
    · intro _ haf'
      rw [iterAutoflushIr]
      have hx := h.2.2.2.2.1 (by rw [haf, haf'])
      exact ⟨lt_of_le_of_lt hge hx.1, hx.2⟩
    · intro _ haf'
      rw [iterAutoflushIr]
      exact (h.2.2.2.2.2 (by rw [haf, haf'])).1

theorem rolesOk_of_ir_none {s : IndexSt} (h : s.ir = none) : rolesOk s := by
  simp [rolesOk, h]

theorem rolesOk_of_iw_false {s : IndexSt} (h : s.iw = false) : rolesOk s := by
  simp [rolesOk, h]

theorem rolesOk_afIw_ew (s : IndexSt) (h : rolesOk s) :
    rolesOk (autoflushIw (ensureWriterOpen s)) := by
  apply rolesOk_of_ir_none
  rw [(autoflushIw_spec (ensureWriterOpen s)).1, ensureWriterOpen_ir s h]

theorem rolesOk_ess (s : IndexSt) (h : rolesOk s) :
    rolesOk (ensureSearcherOpen s) := by
  apply rolesOk_of_iw_false
  rw [(ensureSearcherOpen_spec s).2.1, ensureReaderOpen_iw s h]

theorem rolesOk_add_doc_i (s : IndexSt) (doc : List (String × String))
    (hits hit0 : Nat) (h : rolesOk s) :
    rolesOk (index_add_doc_i s doc hits hit0).st := by
  obtain ⟨gen, ir, sea, iw, iwa, ana, hwr, af, cl, key⟩ := s
  cases key with
  | nil =>
    simp only [index_add_doc_i]
    exact rolesOk_afIw_ew _ h
  | cons f ks =>
    cases ks with
    | nil =>
      simp only [index_add_doc_i]
      cases doc.lookup f with
      | some v =>
        exact rolesOk_afIw_ew _
          (rolesOk_of_ir_none (ensureWriterOpen_ir _ h))
      | none =>
        exact rolesOk_afIw_ew _
          (rolesOk_of_ir_none (ensureWriterOpen_ir _ h))
    | cons f2 ks2 =>
      simp only [index_add_doc_i]
      split_ifs with h1 h2
      · exact rolesOk_ess _ h
      · exact rolesOk_afIw_ew _ (rolesOk_ess _ h)
      · exact rolesOk_afIw_ew _ (rolesOk_ess _ h)

theorem analyzer_add_doc_i (s : IndexSt) (doc : List (String × String))
    (hits hit0 : Nat) :
    (index_add_doc_i s doc hits hit0).st.analyzer = s.analyzer := by
  obtain ⟨gen, ir, sea, iw, iwa, ana, hwr, af, cl, key⟩ := s
  cases key with
  | nil =>
    simp only [index_add_doc_i]
    rw [(autoflushIw_spec _).2.2.1, ensureWriterOpen_analyzer]
  | cons f ks =>
    cases ks with
    | nil =>
      simp only [index_add_doc_i]
      cases doc.lookup f with
      | some v =>
        rw [(autoflushIw_spec _).2.2.1, ensureWriterOpen_analyzer,
          ensureWriterOpen_analyzer]
      | none =>
        rw [(autoflushIw_spec _).2.2.1, ensureWriterOpen_analyzer,
          ensureWriterOpen_analyzer]
    | cons f2 ks2 =>
      simp only [index_add_doc_i]
      split_ifs with h1 h2
      · exact (ensureSearcherOpen_spec _).2.2.2.2.2
      · rw [(autoflushIw_spec _).2.2.1, ensureWriterOpen_analyzer,
          (ensureSearcherOpen_spec _).2.2.2.2.2]
      · rw [(autoflushIw_spec _).2.2.1, ensureWriterOpen_analyzer,
          (ensureSearcherOpen_spec _).2.2.2.2.2]

/-- Claim C5: every facade operation preserves the invariant that the writer
and the reader are never both open; an operation that opens the reader while
the writer is open closes the writer, committing it (the store generation
advances); and with check_latest set, opening the reader always leaves it at
the store's current generation (a stale reader is closed and reopened from
the store). -/
theorem C5_role_state_machine :
    (∀ (s : IndexSt) (op : FOp), rolesOk s → rolesOk (fstep s op)) ∧
    (∀ s : IndexSt, rolesOk s → s.iw = true →
      (ensureReaderOpen s).iw = false ∧
      s.storeGen < (ensureReaderOpen s).storeGen) ∧
    (∀ s : IndexSt, s.checkLatest = true →
      (ensureReaderOpen s).ir = some (ensureReaderOpen s).storeGen) := by
  refine ⟨?_, ?_, ?_⟩
  · intro s op h
    cases op with
    | optimize => exact rolesOk_afIw_ew s h
    | deleteDoc =>
      apply rolesOk_of_iw_false
      rw [show (fstep s FOp.deleteDoc).iw = (autoflushIr (ensureReaderOpen s)).iw from rfl,
        (autoflushIr_spec _).1, ensureReaderOpen_iw s h]
    | deleteTerm n =>
      show rolesOk (index_delete_term s n)
      unfold index_delete_term
      split_ifs with h1
      · apply rolesOk_of_iw_false
        rw [(iterAutoflushIr_spec s n).1]
        rcases Option.isSome_iff_exists.1 h1 with ⟨g, hg⟩
        exact iw_false_of_rolesOk s h hg
      · exact rolesOk_of_ir_none (ensureWriterOpen_ir s h)
    | deleteQuery =>
      apply rolesOk_of_iw_false
      rw [show (fstep s FOp.deleteQuery).iw
          = (autoflushIr (ensureSearcherOpen s)).iw from rfl,
        (autoflushIr_spec _).1, (ensureSearcherOpen_spec s).2.1,
        ensureReaderOpen_iw s h]
    | flush =>
      show rolesOk (index_flush s)
      unfold index_flush
      split_ifs with h1 h2
      · apply rolesOk_of_iw_false
        simp only [irCommit]
        rcases Option.isSome_iff_exists.1 h1 with ⟨g, hg⟩
        simpa using iw_false_of_rolesOk s h hg
      · apply rolesOk_of_iw_false
        simp [iwClose]
      · simpa [rolesOk] using h
    | addDoc doc hits hit0 => exact rolesOk_add_doc_i s doc hits hit0 h
    | readerOp => exact rolesOk_of_iw_false (ensureReaderOpen_iw s h)
    | searcherOp => exact rolesOk_ess s h
    | writerOp => exact rolesOk_of_ir_none (ensureWriterOpen_ir s h)
  · intro s h hiw
    have hirn : s.ir = none := by
      cases hir : s.ir with
      | none => rfl
      | some g =>
        rw [iw_false_of_rolesOk s h hir] at hiw
        exact absurd hiw (by simp)
    exact (ensureReaderOpen_spec s).2.2.2.2.2.2.2 hirn hiw
  · intro s h
    exact (ensureReaderOpen_spec s).2.2.2.2.2.2.1 h

/-- Witness for C5 at concrete states: the idle state satisfies the
invariant and is preserved by an optimize step; from a state with an open
writer, opening the reader closes the writer and advances the store; with
check_latest set the opened reader carries the store's generation. -/
theorem C5_witness :
    rolesOk (fstep idleSt FOp.optimize) ∧
    ((ensureReaderOpen { idleSt with iw := true }).iw = false ∧
      ({ idleSt with iw := true } : IndexSt).storeGen
        < (ensureReaderOpen { idleSt with iw := true }).storeGen) ∧
    (ensureReaderOpen idleSt).ir = some (ensureReaderOpen idleSt).storeGen := by
  refine ⟨?_, ?_, ?_⟩
  · exact C5_role_state_machine.1 idleSt FOp.optimize (by simp [rolesOk, idleSt])
  · exact C5_role_state_machine.2.1 { idleSt with iw := true }
      (by simp [rolesOk, idleSt]) (by simp)
  · exact C5_role_state_machine.2.2 idleSt (by simp [idleSt])

/-- Claim C10: `index_add_doc_a` uses the supplied analyzer only for the one
add; whenever the call returns (no ARG_ERROR raise), the index's analyzer
field is the one it held before the call, also when the supplied analyzer
differs from it. -/
theorem C10_add_doc_a_restores_analyzer (s : IndexSt)
    (doc : List (String × String)) (analyzer : Nat) (hits hit0 : Nat)
    (h : (index_add_doc_a s doc analyzer hits hit0).err = false) :
    (index_add_doc_a s doc analyzer hits hit0).st.analyzer = s.analyzer := by
  unfold index_add_doc_a at h ⊢
  dsimp only at h ⊢
  by_cases h1 : analyzer ≠ s.analyzer
  · rw [if_pos h1] at h ⊢
    rcases herr : (index_add_doc_i { s with analyzer := analyzer }
        doc hits hit0).err with _ | _
    · simp [herr]
    · simp [herr] at h
  · rw [if_neg h1] at h ⊢
    exact analyzer_add_doc_i s doc hits hit0

/-- Witness for C10: a concrete add through a different analyzer leaves the
index's analyzer untouched. -/
theorem C10_witness :
    (index_add_doc_a idleSt [("id", "x")] 7 0 0).st.analyzer
      = idleSt.analyzer :=
  C10_add_doc_a_restores_analyzer idleSt [("id", "x")] 7 0 0 (by decide)

/-- Claim C3: keyed upsert of `index_add_doc_i`.  With a single key field
present in the document, a delete-by-term on that field's value precedes the
add, both through the writer; with more than one key field, a conjunction of
term queries over the key fields present in the document is searched, and
zero hits gives a plain add, exactly one hit deletes that hit's doc and then
adds, and more than one hit raises the non-unique-key argument error without
adding the document. -/
theorem C3_keyed_upsert (s : IndexSt) (doc : List (String × String))
    (hits hit0 : Nat) :
    (∀ f v, s.key = [f] → doc.lookup f = some v →
      (index_add_doc_i s doc hits hit0).err = false ∧
      (index_add_doc_i s doc hits hit0).trace
        = [Act.iwDeleteTerm f v, Act.iwAddDoc]) ∧
    (2 ≤ s.key.length →
      (hits = 0 →
        (index_add_doc_i s doc hits hit0).err = false ∧
        (index_add_doc_i s doc hits hit0).trace
          = [Act.searchKey (s.key.filterMap
              (fun f => (doc.lookup f).map (fun v => (f, v)))), Act.iwAddDoc]) ∧
      (hits = 1 →
        (index_add_doc_i s doc hits hit0).err = false ∧
        (index_add_doc_i s doc hits hit0).trace
          = [Act.searchKey (s.key.filterMap
              (fun f => (doc.lookup f).map (fun v => (f, v)))),
             Act.irDeleteDoc hit0, Act.iwAddDoc]) ∧
      (2 ≤ hits →
        (index_add_doc_i s doc hits hit0).err = true ∧
        (index_add_doc_i s doc hits hit0).trace
          = [Act.searchKey (s.key.filterMap
              (fun f => (doc.lookup f).map (fun v => (f, v))))])) := by
  constructor
  · intro f v hk hl
    simp [index_add_doc_i, hk, hl]
  · intro hk2
    obtain ⟨f, f2, ks, hk⟩ : ∃ f f2 ks, s.key = f :: f2 :: ks := by
      rcases hsk : s.key with _ | ⟨a, _ | ⟨b, l⟩⟩
      · rw [hsk] at hk2
        simp at hk2
      · rw [hsk] at hk2
        simp at hk2
      · exact ⟨a, b, l, rfl⟩
    refine ⟨?_, ?_, ?_⟩ <;> intro hh
    · simp [index_add_doc_i, hk, hh]
    · simp [index_add_doc_i, hk, hh]
    · have hgt : hits > 1 := by omega
      simp [index_add_doc_i, hk, hgt]

/-- Witness for C3: concrete single-field and two-field upserts. -/
theorem C3_witness :
    (index_add_doc_i { idleSt with key := ["k"] } [("k", "v")] 0 0).trace
      = [Act.iwDeleteTerm "k" "v", Act.iwAddDoc] ∧
    (index_add_doc_i { idleSt with key := ["k1", "k2"] }
        [("k1", "a"), ("k2", "b")] 1 5).trace
      = [Act.searchKey [("k1", "a"), ("k2", "b")], Act.irDeleteDoc 5,
         Act.iwAddDoc] ∧
    (index_add_doc_i { idleSt with key := ["k1", "k2"] }
        [("k1", "a"), ("k2", "b")] 2 0).err = true := by
  refine ⟨?_, ?_, ?_⟩
  · exact ((C3_keyed_upsert { idleSt with key := ["k"] } [("k", "v")] 0 0).1
      "k" "v" rfl (by decide)).2
  · have h := ((C3_keyed_upsert { idleSt with key := ["k1", "k2"] }
      [("k1", "a"), ("k2", "b")] 1 5).2 (by decide)).2.1 rfl
    rw [h.2]
    decide
  · exact (((C3_keyed_upsert { idleSt with key := ["k1", "k2"] }
      [("k1", "a"), ("k2", "b")] 2 0).2 (by decide)).2.2 (by decide)).1

/-- Counterexample to claim C4 as stated: delete-by-term is a mutating
facade operation, but from a state with no reader open (the writer branch of
index_delete_term) it neither closes the writer nor records has_writes, so
the auto-flush policy fails for it. -/
theorem C4_counterexample :
    idleSt.autoFlush = false ∧
    (index_delete_term idleSt 0).hasWrites = false ∧
    ¬ autoflushPolicy (fun s => index_delete_term s 0) := by
  refine ⟨rfl, by decide, ?_⟩
  intro hp
  have h := (hp idleSt).2 rfl
  rw [show (index_delete_term idleSt 0).hasWrites = false from by decide] at h
  exact absurd h (by simp)

theorem policy_afIw_ew (s X : IndexSt) (hge : s.storeGen ≤ X.storeGen)
    (haf : X.autoFlush = s.autoFlush) :
    (s.autoFlush = true →
      s.storeGen < (autoflushIw (ensureWriterOpen X)).storeGen ∧
      ((autoflushIw (ensureWriterOpen X)).iw = false ∨
        (autoflushIw (ensureWriterOpen X)).ir
          = some (autoflushIw (ensureWriterOpen X)).storeGen)) ∧
    (s.autoFlush = false →
      (autoflushIw (ensureWriterOpen X)).hasWrites = true) := by
  have hspec := autoflushIw_spec (ensureWriterOpen X)
  have haf' : (ensureWriterOpen X).autoFlush = s.autoFlush := by
    rw [ensureWriterOpen_autoFlush, haf]
  constructor
  · intro ht
    have hx := hspec.2.2.2.2.1 (by rw [haf', ht])
    refine ⟨?_, Or.inl hx.1⟩
    calc s.storeGen ≤ X.storeGen := hge
      _ = (ensureWriterOpen X).storeGen := (ensureWriterOpen_storeGen X).symm
      _ < _ := hx.2
  · intro hf
    exact (hspec.2.2.2.2.2 (by rw [haf', hf])).1

/-- Claim C4, amended: the auto-flush policy - with auto_flush the operation
publishes to the store (closing the writer or committing the reader) before
returning, without auto_flush it sets has_writes - holds for optimize,
delete-by-doc-id, delete-by-query, for add_doc whenever it returns without
raising, and for delete-by-term when a reader is open and the term matches
at least one document.  It does not hold for delete-by-term in writer mode
(the source's writer branch lacks AUTOFLUSH_IW), nor when the term matches
no document (the reader branch auto-flushes once per deleted doc). -/
theorem C4_amended_autoflush :
    autoflushPolicy index_optimize ∧
    autoflushPolicy index_delete ∧
    autoflushPolicy index_delete_query ∧
    (∀ (doc : List (String × String)) (hits hit0 : Nat) (s : IndexSt),
      (index_add_doc_i s doc hits hit0).err = false →
      (s.autoFlush = true →
        s.storeGen < (index_add_doc_i s doc hits hit0).st.storeGen ∧
        ((index_add_doc_i s doc hits hit0).st.iw = false ∨
          (index_add_doc_i s doc hits hit0).st.ir
            = some (index_add_doc_i s doc hits hit0).st.storeGen)) ∧
      (s.autoFlush = false →
        (index_add_doc_i s doc hits hit0).st.hasWrites = true)) ∧
    (∀ (s : IndexSt) (n : Nat), s.ir.isSome = true → 1 ≤ n →
      (s.autoFlush = true →
        s.storeGen < (index_delete_term s n).storeGen ∧
        (index_delete_term s n).ir = some (index_delete_term s n).storeGen) ∧
      (s.autoFlush = false → (index_delete_term s n).hasWrites = true)) := by
  refine ⟨?_, ?_, ?_, ?_, ?_⟩
  · intro s
    exact policy_afIw_ew s s le_rfl rfl
  · intro s
    have hspec := autoflushIr_spec (ensureReaderOpen s)
    constructor
    · intro ht
      have hx := hspec.2.2.2.2.1 (by rw [ensureReaderOpen_autoFlush, ht])
      exact ⟨lt_of_le_of_lt (ensureReaderOpen_storeGen_ge s) hx.1, Or.inr hx.2⟩
    · intro hf
      exact (hspec.2.2.2.2.2 (by rw [ensureReaderOpen_autoFlush, hf])).1
  · intro s
    have hess := ensureSearcherOpen_spec s
    have hspec := autoflushIr_spec (ensureSearcherOpen s)
    constructor
    · intro ht
      have hx := hspec.2.2.2.2.1 (by rw [hess.2.2.2.2.1, ht])
      refine ⟨lt_of_le_of_lt ?_ hx.1, Or.inr hx.2⟩
      rw [hess.2.2.1]
      exact ensureReaderOpen_storeGen_ge s
    · intro hf
      exact (hspec.2.2.2.2.2 (by rw [hess.2.2.2.2.1, hf])).1
  · intro doc hits hit0 s herr
    obtain ⟨gen, ir, sea, iw, iwa, ana, hwr, af, cl, key⟩ := s
    cases key with
    | nil =>
      exact policy_afIw_ew (IndexSt.mk gen ir sea iw iwa ana hwr af cl [])
        (IndexSt.mk gen ir sea iw iwa ana hwr af cl []) le_rfl rfl
    | cons f ks =>
      cases ks with
      | nil =>
        simp only [index_add_doc_i] at herr ⊢
        cases doc.lookup f with
        | some v =>
          exact policy_afIw_ew
            (IndexSt.mk gen ir sea iw iwa ana hwr af cl [f])
            (ensureWriterOpen (IndexSt.mk gen ir sea iw iwa ana hwr af cl [f]))
            (le_of_eq (ensureWriterOpen_storeGen _).symm)
            (ensureWriterOpen_autoFlush _)
        | none =>
          exact policy_afIw_ew
            (IndexSt.mk gen ir sea iw iwa ana hwr af cl [f])
            (ensureWriterOpen (IndexSt.mk gen ir sea iw iwa ana hwr af cl [f]))
            (le_of_eq (ensureWriterOpen_storeGen _).symm)
            (ensureWriterOpen_autoFlush _)
      | cons f2 ks2 =>
        simp only [index_add_doc_i] at herr ⊢
        split_ifs at herr ⊢ with h1 h2
        all_goals
          have hess := ensureSearcherOpen_spec
            (IndexSt.mk gen ir sea iw iwa ana hwr af cl (f :: f2 :: ks2))
        all_goals
          refine policy_afIw_ew
            (IndexSt.mk gen ir sea iw iwa ana hwr af cl (f :: f2 :: ks2))
            (ensureSearcherOpen
              (IndexSt.mk gen ir sea iw iwa ana hwr af cl (f :: f2 :: ks2)))
            ?_ hess.2.2.2.2.1
        all_goals rw [hess.2.2.1]
        all_goals exact ensureReaderOpen_storeGen_ge _
  · intro s n hir hn
    unfold index_delete_term
    rw [if_pos hir]
    have hspec := iterAutoflushIr_spec s n
    constructor
    · intro ht
      exact hspec.2.2.2.1 hn ht
    · intro hf
      exact hspec.2.2.2.2 hn hf

/-- Witness for the amended C4 at concrete states: a delete with auto_flush
off records pending writes; an optimize with auto_flush on advances the
store; reader-mode delete-by-term with one match and auto_flush off records
pending writes. -/
theorem C4_witness :
    (index_delete idleSt).hasWrites = true ∧
    ({ idleSt with autoFlush := true } : IndexSt).storeGen
      < (index_optimize { idleSt with autoFlush := true }).storeGen ∧
    (index_delete_term { idleSt with ir := some 0 } 1).hasWrites = true := by
  refine ⟨?_, ?_, ?_⟩
  · exact (C4_amended_autoflush.2.1 idleSt).2 rfl
  · exact ((C4_amended_autoflush.1 { idleSt with autoFlush := true }).1 rfl).1
  · exact (C4_amended_autoflush.2.2.2.2 { idleSt with ir := some 0 } 1
      (by decide) (by decide)).2 rfl

/-! ### Search-side lemmas -/

theorem searchHits_eq_nil (idx : SegIndex) (m : Nat → Bool)
    (h : ∀ d, m d = false) : searchHits idx m = [] := by
  unfold searchHits
  rw [List.filter_eq_nil_iff]
  intro a _
  simp [h a]

theorem boolMatches_no_candidates (cs : List (Occur × (Nat → Bool)))
    (hm : cs.filter (fun c => c.1 = Occur.must) = [])
    (hs : cs.filter (fun c => c.1 = Occur.should) = []) (d : Nat) :
    boolMatches cs d = false := by
  unfold boolMatches
  rw [hm, hs]
  simp

theorem filter_occur_map_mustNot (rest : List (Nat → Bool)) (p : Occur)
    (hp : ¬ (Occur.mustNot = p)) :
    (rest.map (fun r => (Occur.mustNot, r))).filter (fun c => c.1 = p)
      = [] := by
  induction rest with
  | nil => rfl
  | cons r l ih =>
    rw [List.map_cons, List.filter_cons, if_neg (by simp [hp])]
    exact ih

theorem boolMatches_mustNot_only (s : Nat → Bool)
    (rest : List (Nat → Bool)) (d : Nat) :
    boolMatches ((Occur.mustNot, s) :: rest.map (fun r => (Occur.mustNot, r)))
      d = false := by
  apply boolMatches_no_candidates
  · rw [List.filter_cons]
    simp only [decide_eq_true_eq]
    rw [if_neg (by simp)]
    exact filter_occur_map_mustNot rest Occur.must (by simp)
  · rw [List.filter_cons]
    simp only [decide_eq_true_eq]
    rw [if_neg (by simp)]
    exact filter_occur_map_mustNot rest Occur.should (by simp)

/-- Claim C2, settled for the spec's boolean semantics (the boolean scorer is
not among the sources; `boolMatches` is modelled from the spec): a Boolean
query with no MUST and no SHOULD clause and at least one MUST_NOT clause
matches no document, for every index and every such clause list; in
particular the MUST_NOT-only query over word3 of test_boolean_query yields
zero hits on the 18-document corpus.  The assertion at
src/c/test/test_search.c:424 instead expects the complement set
0,1,4,5,7,9,10,12,13,15,16,17 and so contradicts the two spec sentences the
claim quotes. -/
theorem C2_mustnot_only_matches_nothing :
    (∀ (idx : SegIndex) (s : Nat → Bool) (rest : List (Nat → Bool)),
      searchHits idx (boolMatches
        ((Occur.mustNot, s) :: rest.map (fun r => (Occur.mustNot, r)))) = []) ∧
    searchHits corpusIndex
      (boolMatches [(Occur.mustNot, termMatches corpusIndex "field" "word3")])
      = [] := by
  have hgen : ∀ (idx : SegIndex) (s : Nat → Bool) (rest : List (Nat → Bool)),
      searchHits idx (boolMatches
        ((Occur.mustNot, s) :: rest.map (fun r => (Occur.mustNot, r)))) = [] := by
    intro idx s rest
    exact searchHits_eq_nil idx _ (boolMatches_mustNot_only s rest)
  exact ⟨hgen, hgen corpusIndex (termMatches corpusIndex "field" "word3") []⟩

theorem lookup_eq_none_of_not_mem {β : Type} (l : List (String × β))
    (t : String) (h : t ∉ l.map (fun e => e.1)) : l.lookup t = none := by
  induction l with
  | nil => rfl
  | cons a l ih =>
    rw [List.map_cons, List.mem_cons] at h
    push_neg at h
    obtain ⟨k, v⟩ := a
    have hk : (t == k) = false := by
      simp only [beq_eq_false_iff_ne, ne_eq]
      exact h.1
    simp only [List.lookup, hk]
    exact ih h.2

theorem termPostings_of_field_none (idx : SegIndex) (f t : String)
    (h : idx.fieldData.lookup f = none) : termPostings idx f t = [] := by
  simp [termPostings, h]

theorem termMatches_of_postings_nil (idx : SegIndex) (f t : String)
    (h : termPostings idx f t = []) (d : Nat) :
    termMatches idx f t d = false := by
  simp [termMatches, positionsOf, h]

theorem fieldTermDict_of_field_none (idx : SegIndex) (f : String)
    (h : idx.fieldData.lookup f = none) : fieldTermDict idx f = [] := by
  simp [fieldTermDict, h]

theorem slotPositions_of_field_none (idx : SegIndex) (f : String) (d : Nat)
    (h : idx.fieldData.lookup f = none) (alts : List String) :
    slotPositions idx f d alts = [] := by
  induction alts with
  | nil => rfl
  | cons t ts ih =>
    rw [slotPositions, ih]
    rw [show positionsOf idx f t d = [] from by
      simp [positionsOf, termPostings_of_field_none idx f t h]]
    rfl

theorem foldr_append_nil {α : Type} (L : List (List α))
    (h : ∀ x ∈ L, x = []) : L.foldr (fun a acc => a ++ acc) [] = [] := by
  induction L with
  | nil => rfl
  | cons x l ih =>
    rw [List.foldr_cons, h x (by simp), ih (fun y hy => h y (by simp [hy]))]
    rfl

theorem phraseMatches_of_field_none (idx : SegIndex) (f : String)
    (h : idx.fieldData.lookup f = none) (terms : List (List String × Int))
    (slop : Nat) (d : Nat) : phraseMatches idx f terms slop d = false := by
  cases terms with
  | nil => rfl
  | cons e rest =>
    simp only [phraseMatches]
    rw [foldr_append_nil]
    · rfl
    · intro x hx
      rcases List.mem_map.1 hx with ⟨y, _, hy⟩
      rw [← hy, adjPositions, slotPositions_of_field_none idx f d h]
      rfl

theorem boolMatches_all_false (cs : List (Occur × (Nat → Bool)))
    (h : ∀ c ∈ cs, ∀ d, c.2 d = false) (d : Nat) :
    boolMatches cs d = false := by
  unfold boolMatches
  have hsub : ∀ (p : Occur) c, c ∈ cs.filter (fun c => c.1 = p) → c ∈ cs :=
    fun p c hc => (List.mem_filter.1 hc).1
  rcases hmu : cs.filter (fun c => c.1 = Occur.must) with _ | ⟨a, l⟩
  · rcases hsh : cs.filter (fun c => c.1 = Occur.should) with _ | ⟨b, m⟩
    · simp [hmu, hsh]
    · rw [hmu, hsh]
      simp only [List.isEmpty_nil, List.isEmpty_cons, if_true, if_false,
        Bool.false_eq_true]
      have hany : (b :: m).any (fun c => c.2 d) = false := by
        rw [List.any_eq_false]
        intro x hx
        rw [h x (hsub Occur.should x (by rw [hsh]; exact hx)) d]
        simp
      rw [hany]
      simp
  · rw [hmu]
    simp only [List.isEmpty_cons, Bool.false_eq_true, if_false]
    have hall : (a :: l).all (fun c => c.2 d) = false := by
      rw [List.all_eq_false]
      refine ⟨a, by simp, ?_⟩
      rw [h a (hsub Occur.must a (by rw [hmu]; simp)) d]
      simp
    rw [hall]
    simp

/-- Claim C6: a query naming a field not present in the index - term,
phrase, prefix, wildcard, multi-term, or a boolean whose clauses all yield
zero hits, as such clauses do - returns zero hits, as does a term query for
a term absent from the named field; everything is total, no error is
raised.  (The scorers are not among the sources; the semantics are modelled
from the spec, which requires exactly this degradation to an empty
scorer.) -/
theorem C6_unknown_field_or_term (idx : SegIndex) (f : String) :
    (idx.fieldData.lookup f = none →
      (∀ t, searchHits idx (termMatches idx f t) = []) ∧
      (∀ terms slop, searchHits idx (phraseMatches idx f terms slop) = []) ∧
      (∀ lit, searchHits idx (prefMatches idx f lit) = []) ∧
      (∀ pat, searchHits idx (wildcardMatches idx f pat) = []) ∧
      (∀ ts, searchHits idx (multiTermMatches idx f ts) = [])) ∧
    (∀ t, t ∉ fieldTermDict idx f →
      searchHits idx (termMatches idx f t) = []) ∧
    (∀ cs : List (Occur × (Nat → Bool)),
      (∀ c ∈ cs, ∀ d, c.2 d = false) →
      searchHits idx (boolMatches cs) = []) := by
  have hterm : ∀ t, idx.fieldData.lookup f = none →
      ∀ d, termMatches idx f t d = false := fun t h d =>
    termMatches_of_postings_nil idx f t (termPostings_of_field_none idx f t h) d
  have hmulti : ∀ (ts : List String), (∀ t ∈ ts, ∀ d, termMatches idx f t d = false) →
      ∀ d, multiTermMatches idx f ts d = false := by
    intro ts hts d
    rw [multiTermMatches, List.any_eq_false]
    intro t ht
    rw [hts t ht d]
    simp
  refine ⟨?_, ?_, ?_⟩
  · intro h
    refine ⟨?_, ?_, ?_, ?_, ?_⟩
    · intro t
      exact searchHits_eq_nil idx _ (hterm t h)
    · intro terms slop
      exact searchHits_eq_nil idx _ (phraseMatches_of_field_none idx f h terms slop)
    · intro lit
      exact searchHits_eq_nil idx _
        (hmulti _ (fun t ht => hterm t h))
    · intro pat
      exact searchHits_eq_nil idx _
        (hmulti _ (fun t ht => hterm t h))
    · intro ts
      exact searchHits_eq_nil idx _ (hmulti ts (fun t ht => hterm t h))
  · intro t ht
    apply searchHits_eq_nil idx _
    apply termMatches_of_postings_nil idx f t
    unfold termPostings
    rw [lookup_eq_none_of_not_mem _ t ht]
    rfl
  · intro cs hcs
    exact searchHits_eq_nil idx _ (boolMatches_all_false cs hcs)

/-- Witness for C6: the unknown-field and unknown-term queries of
test_term_query on the corpus. -/
theorem C6_witness :
    searchHits corpusIndex (termMatches corpusIndex "not_a_field" "word2") = [] ∧
    searchHits corpusIndex (termMatches corpusIndex "field" "2342") = [] ∧
    searchHits corpusIndex
      (boolMatches [(Occur.should, termMatches corpusIndex "not_a_field" "word1"),
                    (Occur.should, termMatches corpusIndex "not_a_field" "word3")])
      = [] := by
  refine ⟨?_, ?_, ?_⟩
  · exact ((C6_unknown_field_or_term corpusIndex "not_a_field").1 (by decide)).1
      "word2"
  · exact (C6_unknown_field_or_term corpusIndex "field").2.1 "2342" (by decide)
  · refine (C6_unknown_field_or_term corpusIndex "not_a_field").2.2 _ ?_
    have h := (C6_unknown_field_or_term corpusIndex "not_a_field").1 (by decide)
    intro c hc d
    rcases List.mem_cons.1 hc with hc1 | hc1
    · rw [hc1]
      exact termMatches_of_postings_nil corpusIndex "not_a_field" "word1"
        (termPostings_of_field_none corpusIndex "not_a_field" "word1" (by decide)) d
    · rcases List.mem_cons.1 hc1 with hc2 | hc2
      · rw [hc2]
        exact termMatches_of_postings_nil corpusIndex "not_a_field" "word3"
          (termPostings_of_field_none corpusIndex "not_a_field" "word3" (by decide)) d
      · exact absurd hc2 (List.not_mem_nil c)

/-- Claim C7: search_unscored yields, in strictly increasing order, up to
the buffer's capacity of the doc ids matching the query that are at least
the offset; on the 18-document corpus, TermQuery(field, word1) with a 5-slot
buffer yields [12,13,14,15,16] at offset 12, [17] at offset 17 and [] at
offset 18.  (The searcher is not among the sources; `searchUnscored` is
modelled from the spec; the corpus is the one prepared by
prepare_search_index in test_search.c.) -/
theorem C7_search_unscored :
    (∀ (idx : SegIndex) (m : Nat → Bool) (len offset : Nat),
      (searchUnscored idx m len offset).Pairwise (· < ·) ∧
      (searchUnscored idx m len offset).length ≤ len ∧
      (searchUnscored idx m len offset).all
        (fun d => decide (offset ≤ d) && m d) = true) ∧
    searchUnscored corpusIndex (termMatches corpusIndex "field" "word1") 5 12
      = [12, 13, 14, 15, 16] ∧
    searchUnscored corpusIndex (termMatches corpusIndex "field" "word1") 5 17
      = [17] ∧
    searchUnscored corpusIndex (termMatches corpusIndex "field" "word1") 5 18
      = [] := by
  refine ⟨?_, by decide, by decide, by decide⟩
  intro idx m len offset
  refine ⟨?_, ?_, ?_⟩
  · apply List.Pairwise.sublist (List.take_sublist _ _)
    apply List.Pairwise.filter
    apply List.Pairwise.filter
    exact List.pairwise_lt_range _
  · exact List.length_take_le _ _
  · rw [List.all_eq_true]
    intro d hd
    have hd1 : d ∈ ((List.range idx.maxDoc).filter m).filter
        (fun d => offset ≤ d) := List.mem_of_mem_take hd
    have hd2 := List.mem_filter.1 hd1
    have hd3 := List.mem_filter.1 hd2.1
    simp only [Bool.and_eq_true]
    exact ⟨hd2.2, hd3.2⟩

theorem isEmpty_append {α : Type} (l l' : List α) :
    (l ++ l').isEmpty = (l.isEmpty && l'.isEmpty) := by
  cases l <;> simp

theorem isEmpty_map {α β : Type} (g : α → β) (l : List α) :
    (l.map g).isEmpty = l.isEmpty := by
  cases l <;> rfl

theorem slotPositions_isEmpty (idx : SegIndex) (f : String) (d : Nat)
    (alts : List String) :
    (slotPositions idx f d alts).isEmpty = !multiTermMatches idx f alts d := by
  induction alts with
  | nil => rfl
  | cons t ts ih =>
    rw [slotPositions, multiTermMatches, List.any_cons, isEmpty_append, ih]
    rw [show termMatches idx f t d = !(positionsOf idx f t d).isEmpty from rfl]
    rw [← multiTermMatches]
    cases (positionsOf idx f t d).isEmpty <;>
      cases multiTermMatches idx f ts d <;> rfl

theorem any_window_self (A : List Int) (slop : Nat) :
    A.any (fun a => A.any
      (fun b => decide (a ≤ b) && decide (b ≤ a + (slop : Int))))
      = !A.isEmpty := by
  cases A with
  | nil => rfl
  | cons x xs =>
    have hx : (decide (x ≤ x) && decide (x ≤ x + (slop : Int))) = true := by
      simp only [Bool.and_eq_true, decide_eq_true_eq]
      omega
    simp [List.any_cons, hx]

theorem phraseMatches_single (idx : SegIndex) (f : String)
    (alts : List String) (p : Int) (slop : Nat) (d : Nat) :
    phraseMatches idx f [(alts, p)] slop d = multiTermMatches idx f alts d := by
  simp only [phraseMatches, List.map_cons, List.map_nil, List.foldr_cons,
    List.foldr_nil, List.append_nil, List.all_cons, List.all_nil,
    Bool.and_true]
  rw [any_window_self (adjPositions idx f d alts p) slop]
  rw [show (adjPositions idx f d alts p).isEmpty
      = (slotPositions idx f d alts).isEmpty from by
    rw [adjPositions, isEmpty_map]]
  rw [slotPositions_isEmpty, Bool.not_not]

/-- Claim C9: a phrase query occupying a single position rewrites to a
TermQuery when that position has one alternative and to a MultiTermQuery
when it has several, and the rewritten query matches exactly the documents
the phrase matches (so the hit sets agree).  (Rewrite and scorers are not
among the sources; both sides are modelled from the spec.) -/
theorem C9_phrase_rewrite_collapse (idx : SegIndex) (f : String)
    (alts : List String) (p : Int) (slop : Nat) :
    (∀ t, alts = [t] →
      phq_rewrite f [(alts, p)] slop = RwQuery.term f t) ∧
    (2 ≤ alts.length →
      phq_rewrite f [(alts, p)] slop = RwQuery.multiTerm f alts) ∧
    (∀ d, phraseMatches idx f [(alts, p)] slop d
      = rwMatches idx (phq_rewrite f [(alts, p)] slop) d) ∧
    searchHits idx (phraseMatches idx f [(alts, p)] slop)
      = searchHits idx (rwMatches idx (phq_rewrite f [(alts, p)] slop)) := by
  have hmatch : ∀ d, phraseMatches idx f [(alts, p)] slop d
      = rwMatches idx (phq_rewrite f [(alts, p)] slop) d := by
    intro d
    rw [phraseMatches_single]
    cases alts with
    | nil => rfl
    | cons t ts =>
      cases ts with
      | nil =>
        rw [show phq_rewrite f [([t], p)] slop = RwQuery.term f t from rfl]
        rw [show rwMatches idx (RwQuery.term f t) d = termMatches idx f t d
          from rfl]
        rw [multiTermMatches, List.any_cons, List.any_nil, Bool.or_false]
      | cons t2 ts2 => rfl
  refine ⟨?_, ?_, hmatch, ?_⟩
  · intro t ht
    subst ht
    rfl
  · intro hlen
    cases alts with
    | nil => simp at hlen
    | cons t ts =>
      cases ts with
      | nil => simp at hlen
      | cons t2 ts2 => rfl
  · unfold searchHits
    exact List.filter_congr (fun x _ => hmatch x)

/-- Witness for C9: the single-position phrases of test_phrase_query and
test_multi_phrase_query on the corpus. -/
theorem C9_witness :
    phq_rewrite "field" [(["word2"], 1)] 0 = RwQuery.term "field" "word2" ∧
    phq_rewrite "field" [(["word2", "word3"], 1)] 0
      = RwQuery.multiTerm "field" ["word2", "word3"] ∧
    searchHits corpusIndex
      (phraseMatches corpusIndex "field" [(["word2", "word3"], 1)] 0)
      = searchHits corpusIndex (rwMatches corpusIndex
          (phq_rewrite "field" [(["word2", "word3"], 1)] 0)) := by
  refine ⟨?_, ?_, ?_⟩
  · exact (C9_phrase_rewrite_collapse corpusIndex "field" ["word2"] 1 0).1
      "word2" rfl
  · exact (C9_phrase_rewrite_collapse corpusIndex "field" ["word2", "word3"]
      1 0).2.1 (by decide)
  · exact (C9_phrase_rewrite_collapse corpusIndex "field" ["word2", "word3"]
      1 0).2.2.2

/-- Cross-check of the modelled wildcard matcher against every assertion of
test_wildcard_match (src/c/test/test_search.c:1136-1167). -/
theorem wc_match_test_vectors :
    wc_match "".toList "abc".toList = false ∧
    ([wc_match "*".toList "asdasdg".toList,
      wc_match "asd*".toList "asdasdg".toList,
      wc_match "*dg".toList "asdasdg".toList,
      wc_match "a?d*".toList "asdasdg".toList,
      wc_match "?sd*".toList "asdasdg".toList,
      wc_match "asd?".toList "asdg".toList,
      wc_match "asdg".toList "asdg".toList,
      wc_match "asdf".toList "asdi".toList,
      wc_match "asd??".toList "asdg".toList,
      wc_match "as?g".toList "asdg".toList,
      wc_match "as??g".toList "asdg".toList,
      wc_match "a*?f".toList "asdf".toList,
      wc_match "a?*f".toList "asdf".toList,
      wc_match "a*?df".toList "asdf".toList,
      wc_match "a?*df".toList "asdf".toList,
      wc_match "as*?df".toList "asdf".toList,
      wc_match "as?*df".toList "asdf".toList,
      wc_match "asdf*".toList "asdf".toList,
      wc_match "asd*f".toList "asdf".toList,
      wc_match "*asdf*".toList "asdf".toList,
      wc_match "asd?*****".toList "asdf".toList,
      wc_match "as?*****g".toList "asdg".toList,
      wc_match "*asdf".toList "asdi".toList,
      wc_match "asdf*".toList "asdi".toList,
      wc_match "*asdf*".toList "asdi".toList,
      wc_match "cat1*".toList "cat2/sub1".toList]
      = [true, true, true, true, true, true, true, false, false, true, false,
         true, true, true, true, false, false, true, true, true, true, true,
         false, false, false, false]) := by
  exact ⟨by decide, by decide⟩

/-- Cross-check of the modelled query semantics against the hit sets that
test_term_query, test_boolean_query, test_phrase_query and
test_multi_phrase_query assert over the corpus (src/c/test/test_search.c). -/
theorem corpus_test_expectations :
    searchHits corpusIndex (termMatches corpusIndex "field" "word2")
      = [1, 4, 8] ∧
    searchHits corpusIndex (termMatches corpusIndex "field" "word1")
      = List.range 18 ∧
    searchHits corpusIndex
      (boolMatches [(Occur.must, termMatches corpusIndex "field" "word1"),
                    (Occur.must, termMatches corpusIndex "field" "word3")])
      = [2, 3, 6, 8, 11, 14] ∧
    searchHits corpusIndex
      (boolMatches [(Occur.must, termMatches corpusIndex "field" "word3"),
                    (Occur.mustNot, termMatches corpusIndex "field" "word2")])
      = [2, 3, 6, 11, 14] ∧
    searchHits corpusIndex (phraseMatches corpusIndex "field"
      [(["quick"], 1), (["brown"], 2), (["fox"], 3)] 0) = [1] ∧
    searchHits corpusIndex (phraseMatches corpusIndex "field"
      [(["quick"], 1), (["brown"], 2), (["fox"], 3)] 4) = [1, 16, 17] ∧
    searchHits corpusIndex (phraseMatches corpusIndex "field"
      [(["quick"], 0), (["fox"], 2)] 0) = [1, 11, 14] ∧
    searchHits corpusIndex (phraseMatches corpusIndex "field"
      [(["quick"], 0), (["fox"], 2)] 1) = [1, 11, 14, 16] ∧
    searchHits corpusIndex (phraseMatches corpusIndex "field"
      [(["quick"], 0), (["fox"], 2)] 4) = [1, 11, 14, 16, 17] ∧
    searchHits corpusIndex (phraseMatches corpusIndex "field"
      [(["quick", "fast"], 0), (["brown", "red", "hairy"], 1), (["fox"], 2)] 0)
      = [1, 8, 11, 14] ∧
    searchHits corpusIndex (phraseMatches corpusIndex "field"
      [(["quick", "fast"], 0), (["brown", "red", "hairy"], 1), (["fox"], 2)] 4)
      = [1, 8, 11, 14, 16, 17] := by
  refine ⟨by decide, by decide, by decide, by decide, by decide, by decide,
    by decide, by decide, by decide, by decide, by decide⟩

end Ferret
